import Mathlib

/-!
Shallow embedding of the collection engine of the engineering-metrics-study
repository, together with proofs checking its specification.

Conventions used throughout the embedding:
* ISO timestamps are embedded as `Int` values ordered like the dates they
  denote (the TypeScript code only ever compares `Date` objects).
* `null`/`undefined` fields are embedded as `Option`; where the source relies
  on JavaScript truthiness of strings, the empty string is checked explicitly.
* `async` functions are embedded as pure functions over the list of upstream
  responses they would have consumed; a fallible call is `Except`.
-/

namespace MetricsStudy

/-! ### String helpers

The TypeScript code uses `String.prototype.startsWith`, a `^refs\/heads\//`
regexp replace (which strips one leading occurrence of the literal prefix),
`endsWith`, and `includes` (substring containment).  They are embedded on the
underlying character lists. -/

def strStartsWith (s pre : String) : Bool := pre.data.isPrefixOf s.data

def strEndsWith (s suf : String) : Bool := suf.data.isSuffixOf s.data

def strDrop (s : String) (n : Nat) : String := ⟨s.data.drop n⟩

/-- JavaScript `haystack.includes(needle)`. -/
def strContains (haystack needle : String) : Bool :=
  decide (needle.data <:+: haystack.data)

/-- JavaScript `s.toLowerCase()` on the character list. -/
def strToLower (s : String) : String := ⟨s.data.map Char.toLower⟩

/-! ### ConditionalCache — `fetchWithConditional` (src/unnamed/part_002)

The wrapped request is a function from the conditional headers to either a
response (data plus response headers) or an error carrying an HTTP status.
The `onResponse` callback only feeds the rate limiter and does not influence
the returned value, so it is not part of the embedding. -/

structure RespHeaders where
  etag : Option String
  lastModified : Option String
deriving DecidableEq, Repr

structure CachedResponse (T : Type) where
  data : T
  etag : Option String
  lastModified : Option String
deriving DecidableEq, Repr

structure HttpError where
  status : Int
deriving DecidableEq, Repr

inductive FetchSource where
  | network
  | cache
deriving DecidableEq, Repr

structure ConditionalFetchResult (T : Type) where
  data : T
  etag : Option String
  lastModified : Option String
  source : FetchSource
deriving DecidableEq, Repr

/-- The conditional headers built from the cached value; a JS-falsy (absent or
empty) `etag`/`lastModified` contributes no header. -/
def conditionalHeaders {T : Type} (cached : Option (CachedResponse T)) :
    List (String × String) :=
  (match cached with
    | some c =>
      match c.etag with
      | some e => if e = "" then [] else [("If-None-Match", e)]
      | none => []
    | none => []) ++
  (match cached with
    | some c =>
      match c.lastModified with
      | some lm => if lm = "" then [] else [("If-Modified-Since", lm)]
      | none => []
    | none => [])

def fetchWithConditional {T : Type}
    (request : List (String × String) → Except HttpError (T × RespHeaders))
    (cached : Option (CachedResponse T)) :
    Except HttpError (ConditionalFetchResult T) :=
  match request (conditionalHeaders cached) with
  | .ok (d, h) =>
    .ok { data := d, etag := h.etag, lastModified := h.lastModified,
          source := .network }
  | .error e =>
    match cached with
    | some c =>
      if e.status = 304 then
        .ok { data := c.data, etag := c.etag, lastModified := c.lastModified,
              source := .cache }
      else
        .error e
    | none => .error e

/-! ### RateBudget — `RateLimiter` (src/unnamed/part_003)

`checkAndWait` either returns at once or suspends for a computed number of
milliseconds; the embedding returns `none` for the immediate path and
`some waitMs` for the suspension. -/

structure RateLimiter where
  remaining : Int
  resetAt : Int
  threshold : Int
deriving DecidableEq, Repr

def RateLimiter.checkAndWait (rl : RateLimiter) (now : Int) : Option Int :=
  if rl.remaining > rl.threshold ∨ rl.resetAt ≤ now then
    none
  else
    some (rl.resetAt - now + 1000)

/-! ### BotClassifier (src/unnamed/part_002, `bots.ts`) -/

def DEFAULT_BOT_AUTHOR_PATTERNS : List String :=
  ["dependabot", "renovate", "github-actions", "release-please",
   "semantic-release", "stale", "snyk", "greenkeeper", "allstar",
   "automation-bot"]

def normalizeBotPatterns (patterns : List String) : List String :=
  (patterns.map (fun pattern => strToLower pattern)).filter
    (fun pattern => pattern.length > 0)

def isBotAuthorLogin (login : Option String) (patterns : List String) : Bool :=
  match login with
  | none => false
  | some l =>
    if l = "" then false
    else
      let normalized := strToLower l
      if strEndsWith normalized "[bot]" then true
      else patterns.any (fun pattern => strContains normalized pattern)

/-! ### PullRequestSource — `collectPullRequests` (src/unnamed/part_004)

The GraphQL connection (merged pull requests against the default base branch,
ordered by `MERGED_AT DESC`, cursor-paginated) is embedded as the list of page
responses the server would return for the successive cursors.  Note that the
source function receives only `windowStart`; no window end is passed in. -/

structure PRNode where
  number : Int
  title : String
  createdAt : Int
  mergedAt : Option Int
  additions : Int
  deletions : Int
  changedFiles : Option Int
  headRefName : String
  baseRefName : String
  authorLogin : Option String
deriving DecidableEq, Repr

structure PRPage where
  nodes : List PRNode
  hasNextPage : Bool
deriving DecidableEq, Repr

structure PullRequestSummary where
  number : Int
  title : String
  createdAt : Int
  mergedAt : Int
  additions : Int
  deletions : Int
  changedFiles : Option Int
  headRefName : String
  baseRefName : String
  authorLogin : Option String
deriving DecidableEq, Repr

structure ExcludedBot where
  number : Int
  authorLogin : Option String
deriving DecidableEq, Repr

structure PullRequestCollection where
  pullRequests : List PullRequestSummary
  excludedBots : List ExcludedBot
deriving DecidableEq, Repr

structure PROptions where
  includeBotPRs : Bool
  botAuthorPatterns : List String
deriving Repr

/-- One node of the page-level staleness test: a pull request counts as "merged
before the window" when it is unmerged or its `mergedAt` precedes the start. -/
def prNodeStale (windowStart : Int) (pr : PRNode) : Bool :=
  match pr.mergedAt with
  | none => true
  | some m => m < windowStart

/-- Outcome of one iteration of the `for (const pr of connection.nodes)`
loop: skip (`continue`), record as excluded bot, or retain in the main
result list. -/
inductive PRNodeDecision where
  | skip
  | bot (b : ExcludedBot)
  | retain (s : PullRequestSummary)
deriving DecidableEq, Repr

/-- The body of the `for (const pr of connection.nodes)` loop. -/
def prNodeDecision (options : PROptions) (windowStart : Int)
    (pr : PRNode) : PRNodeDecision :=
  match pr.mergedAt with
  | none => .skip
  | some mergedAt =>
    -- `authorLogin` / `isBot` of the source are inlined here
    if !options.includeBotPRs &&
        isBotAuthorLogin pr.authorLogin options.botAuthorPatterns then
      .bot { number := pr.number, authorLogin := pr.authorLogin }
    else if mergedAt < windowStart then .skip
    else .retain
      { number := pr.number, title := pr.title,
        createdAt := pr.createdAt, mergedAt,
        additions := pr.additions, deletions := pr.deletions,
        changedFiles := pr.changedFiles,
        headRefName := pr.headRefName, baseRefName := pr.baseRefName,
        authorLogin := pr.authorLogin }

/-- The `for (const pr of connection.nodes)` loop. -/
def processPRNodes (options : PROptions) (windowStart : Int) :
    List PRNode → PullRequestCollection → PullRequestCollection
  | [], acc => acc
  | pr :: rest, acc =>
    match prNodeDecision options windowStart pr with
    | .skip => processPRNodes options windowStart rest acc
    | .bot b => processPRNodes options windowStart rest
        { acc with excludedBots := acc.excludedBots ++ [b] }
    | .retain s => processPRNodes options windowStart rest
        { acc with pullRequests := acc.pullRequests ++ [s] }

/-- The `while (true)` pagination loop of `collectPullRequests`. -/
def collectPRPages (options : PROptions) (windowStart : Int) :
    List PRPage → PullRequestCollection → PullRequestCollection
  | [], acc => acc
  | page :: rest, acc =>
    if page.nodes.all (prNodeStale windowStart) && !page.nodes.isEmpty then
      acc
    else
      let acc' := processPRNodes options windowStart page.nodes acc
      if !page.hasNextPage then acc'
      else collectPRPages options windowStart rest acc'

def collectPullRequests (options : PROptions) (windowStart : Int)
    (pages : List PRPage) : PullRequestCollection :=
  collectPRPages options windowStart pages ⟨[], []⟩

/-! ### Unified event record (src/scripts/collector/types.ts) -/

structure DeploymentLikeEvent where
  id : String
  source : String
  name : String
  displayTitle : String
  event : Option String
  status : Option String
  conclusion : Option String
  createdAt : Int
  completedAt : Option Int
  branch : Option String
  sha : Option String
deriving DecidableEq, Repr

/-! ### EventSource: Actions (src/scripts/collector/methods/actions.ts)

`collectActionsEvents` first fetches all pages of
`actions.listWorkflowRunsForRepo` constrained by the `created` range filter;
the embedding receives the fetched run list.  The options mirror
`ActionsCollectionOptions` from types.ts, including the `workflowId` field —
note that the function body never reads it. -/

structure WorkflowRun where
  id : Int
  status : Option String
  conclusion : Option String
  created_at : Option Int
  updated_at : Option Int
  name : Option String
  display_title : Option String
  event : Option String
  head_branch : Option String
  head_sha : Option String
  run_attempt : Option Int
  run_number : Option Int
  html_url : Option String
deriving DecidableEq, Repr

structure ActionsCollectionOptions where
  workflowKeywords : List String
  workflowId : Option Int := none
  events : Option (List String) := none
  branch : Option String := none
deriving DecidableEq, Repr

/-- `normalizeBranchCandidates` from actions.ts: the set (here: list) of
aliases the branch restriction accepts.  The `replace(/^refs\/heads\//, "")`
strips one leading occurrence of the 11-character literal prefix. -/
def normalizeBranchCandidates (branch : String) : List String :=
  let normalized := if strStartsWith branch "refs/" then branch else branch
  let trimmed :=
    if strStartsWith normalized "refs/heads/" then strDrop normalized 11
    else normalized
  [branch, normalized, trimmed, "refs/heads/" ++ trimmed]

def workflowRunEvent (run : WorkflowRun) (createdAt : Int) :
    DeploymentLikeEvent :=
  { id := toString run.id, source := "actions",
    name := run.name.getD "", displayTitle := run.display_title.getD "",
    event := run.event, status := run.status, conclusion := run.conclusion,
    createdAt, completedAt := run.updated_at,
    branch := run.head_branch, sha := run.head_sha }

/-- The `for (const run of runs)` loop of `collectActionsEvents`; `keywords`,
`allowedEvents` and `branchCandidates` are the values precomputed before the
loop. -/
def selectActionsRuns (keywords : List String)
    (allowedEvents : Option (List String))
    (branchCandidates : Option (List String))
    (windowStart windowEnd : Int) :
    List WorkflowRun → List DeploymentLikeEvent
  | [] => []
  | run :: rest =>
    let skip := selectActionsRuns keywords allowedEvents branchCandidates
      windowStart windowEnd rest
    if !(run.status = some "completed" && run.conclusion = some "success") then
      skip
    else
      match run.created_at with
      | none => skip
      | some createdAt =>
        if createdAt < windowStart || createdAt > windowEnd then skip
        else
          let target :=
            strToLower (run.name.getD "" ++ " " ++ run.display_title.getD "")
          match keywords.find? (fun keyword => strContains target keyword) with
          | none => skip
          | some _ =>
            let eventsOk :=
              match allowedEvents with
              | some allowed =>
                if allowed.length > 0 then
                  allowed.contains (strToLower (run.event.getD ""))
                else true
              | none => true
            if !eventsOk then skip
            else
              let branchOk :=
                match branchCandidates with
                | some candidates =>
                  match run.head_branch with
                  | none => false
                  | some headBranch =>
                    headBranch ≠ "" && candidates.contains headBranch
                | none => true
              if !branchOk then skip
              else workflowRunEvent run createdAt :: skip

def collectActionsEvents (options : ActionsCollectionOptions)
    (windowStart windowEnd : Int) (runs : List WorkflowRun) :
    List DeploymentLikeEvent :=
  let keywords := options.workflowKeywords.map (fun keyword => strToLower keyword)
  let allowedEvents := options.events.map (fun es =>
    es.map (fun event => strToLower event))
  let branchCandidates :=
    match options.branch with
    | some b => if b = "" then none else some (normalizeBranchCandidates b)
    | none => none
  selectActionsRuns keywords allowedEvents branchCandidates
    windowStart windowEnd runs

/-! ### EventSource: Releases (src/scripts/collector, `releases.ts`)

`collectReleaseEvents` first fetches the complete release list through
`octokit.paginate` (all pages up front); the embedding receives that list.
The `new RegExp(pattern)` path of `matchesTag` is not shallowly embeddable;
it is abstracted by a `regexTest` oracle, where `regexTest pattern tag = none`
models the `catch` branch (the pattern failed to compile) and `some b` models
`regex.test(tag) = b`.  All claims checked here use `tagPattern = none`, for
which `matchesTag` returns `true` without consulting the oracle. -/

structure Release where
  id : Int
  published_at : Option Int
  created_at : Option Int
  name : Option String
  tag_name : Option String
  prerelease : Bool
  draft : Bool
  target_commitish : Option String
  html_url : Option String
  authorLogin : Option String
deriving DecidableEq, Repr

structure ReleasesCollectionOptions where
  includePrereleases : Option Bool := none
  tagPattern : Option String := none
deriving DecidableEq, Repr

def matchesTag (regexTest : String → String → Option Bool)
    (tag : Option String) (pattern : Option String) : Bool :=
  match pattern with
  | none => true
  | some p =>
    if p = "" then true
    else
      match tag with
      | none => false
      | some t =>
        if t = "" then false
        else
          match regexTest p t with
          | some b => b
          | none => strContains t p

def releaseEvent (release : Release) (relevantTimestamp : Int) :
    DeploymentLikeEvent :=
  { id := "release:" ++ toString release.id, source := "releases",
    name := (release.name.orElse fun _ => release.tag_name).getD "release",
    displayTitle :=
      (release.name.orElse fun _ => release.tag_name).getD "release",
    event := some (if release.prerelease then "prerelease" else "release"),
    status := some (if release.draft then "draft"
      else if release.prerelease then "prerelease" else "released"),
    conclusion := some (if release.draft then "draft" else "released"),
    createdAt := release.created_at.getD relevantTimestamp,
    completedAt := release.published_at.orElse fun _ => release.created_at,
    branch := release.target_commitish, sha := none }

/-- The body of the `for (const release of releases)` loop of
`collectReleaseEvents`: the chain of `continue` guards, ending either in a
skip (`none`) or in the pushed event. -/
def releaseDecision (regexTest : String → String → Option Bool)
    (windowStart windowEnd : Int) (options : ReleasesCollectionOptions)
    (release : Release) : Option DeploymentLikeEvent :=
  let includePrereleases := options.includePrereleases.getD false
  match release.published_at.orElse fun _ => release.created_at with
  | none => none
  | some relevantTimestamp =>
    if relevantTimestamp < windowStart then none
    else if relevantTimestamp > windowEnd then none
    else if !includePrereleases && release.prerelease then none
    else if !matchesTag regexTest release.tag_name options.tagPattern then
      none
    else some (releaseEvent release relevantTimestamp)

/-- The `for (const release of releases)` loop of `collectReleaseEvents`. -/
def collectReleaseEvents (regexTest : String → String → Option Bool)
    (windowStart windowEnd : Int) (options : ReleasesCollectionOptions) :
    List Release → List DeploymentLikeEvent
  | [] => []
  | release :: rest =>
    let skip := collectReleaseEvents regexTest windowStart windowEnd
      options rest
    match releaseDecision regexTest windowStart windowEnd options release with
    | none => skip
    | some event => event :: skip

/-! ### EventSource: Deployments, GraphQL variant
(src/scripts/collector, `deployments-graphql.ts`)

The cursor-paginated connection is embedded as the list of successive page
responses.  The inner loop can `return` from the whole function mid-page, so
its embedding yields a `DeploymentScan` marking whether the scan is done. -/

structure DeploymentStatusNode where
  state : String
  description : Option String
  createdAt : Int
deriving DecidableEq, Repr

structure DeploymentNode where
  id : String
  databaseId : Int
  createdAt : Int
  updatedAt : Int
  environment : Option String
  task : Option String
  refName : Option String
  commitOid : Option String
  creatorLogin : Option String
  statuses : List DeploymentStatusNode
deriving DecidableEq, Repr

structure DeploymentPage where
  nodes : List DeploymentNode
  hasNextPage : Bool
deriving DecidableEq, Repr

structure DeploymentsCollectionOptions where
  environments : Option (List String) := none
  statuses : Option (List String) := none
deriving DecidableEq, Repr

/-- `options?.environments?.length ? (env => ...) : null`: the filter is
active only when a non-empty allow-list is configured. -/
def deploymentEnvironmentOk (options : DeploymentsCollectionOptions)
    (environment : Option String) : Bool :=
  match options.environments with
  | some envs =>
    if envs.length > 0 then
      match environment with
      | none => false
      | some env =>
        envs.any (fun candidate => strToLower candidate = strToLower env)
    else true
  | none => true

def deploymentStatusOk (options : DeploymentsCollectionOptions)
    (statusState : Option String) : Bool :=
  match options.statuses with
  | some sts =>
    if sts.length > 0 then
      match statusState with
      | none => false
      | some state =>
        sts.any (fun candidate => strToLower candidate = strToLower state)
    else true
  | none => true

def deploymentNodeEvent (d : DeploymentNode) : DeploymentLikeEvent :=
  let latestStatus := d.statuses.head?
  let statusState := latestStatus.map (·.state)
  { id := "deployment:" ++ toString d.databaseId, source := "deployments",
    name := d.task.getD "deployment",
    displayTitle := d.environment.getD "unknown",
    event := d.task, status := statusState, conclusion := statusState,
    createdAt := d.createdAt,
    completedAt := some ((latestStatus.map (·.createdAt)).getD d.updatedAt),
    branch := d.refName, sha := d.commitOid }

inductive DeploymentScan where
  /-- The inner loop hit a node older than the window start and the whole
  function returned with the events accumulated so far. -/
  | done (events : List DeploymentLikeEvent)
  /-- The page was processed to its end. -/
  | cont (events : List DeploymentLikeEvent)
deriving DecidableEq, Repr

def DeploymentScan.events : DeploymentScan → List DeploymentLikeEvent
  | .done events => events
  | .cont events => events

/-- The `for (const deployment of connection.nodes)` loop. -/
def processDeploymentNodes (options : DeploymentsCollectionOptions)
    (windowStart windowEnd : Int) :
    List DeploymentNode → List DeploymentLikeEvent → DeploymentScan
  | [], acc => .cont acc
  | d :: rest, acc =>
    if d.createdAt < windowStart then .done acc
    else if d.createdAt > windowEnd then
      processDeploymentNodes options windowStart windowEnd rest acc
    else if !deploymentEnvironmentOk options d.environment then
      processDeploymentNodes options windowStart windowEnd rest acc
    else if !deploymentStatusOk options ((d.statuses.head?).map (·.state)) then
      processDeploymentNodes options windowStart windowEnd rest acc
    else
      processDeploymentNodes options windowStart windowEnd rest
        (acc ++ [deploymentNodeEvent d])

/-- The `while (true)` pagination loop of `collectDeploymentGraphQLEvents`. -/
def collectDeploymentPages (options : DeploymentsCollectionOptions)
    (windowStart windowEnd : Int) :
    List DeploymentPage → List DeploymentLikeEvent → List DeploymentLikeEvent
  | [], acc => acc
  | page :: rest, acc =>
    match processDeploymentNodes options windowStart windowEnd
        page.nodes acc with
    | .done acc' => acc'
    | .cont acc' =>
      if !page.hasNextPage then acc'
      else collectDeploymentPages options windowStart windowEnd rest acc'

def collectDeploymentGraphQLEvents (options : DeploymentsCollectionOptions)
    (windowStart windowEnd : Int) (pages : List DeploymentPage) :
    List DeploymentLikeEvent :=
  collectDeploymentPages options windowStart windowEnd pages []

/-! ### Orchestrator — `collectRepo` / `collectReposParallel`
(src/unnamed/part_004)

`collectRepo` is embedded as a function from the outcomes of its effectful
steps to the pair (list of disk writes performed, in order) × (returned
summary or thrown error):
* `cachedMetadataFile` / `cachedEventsFile` / `cachedPRsFile` are the on-disk
  artifacts `maybeReadCache` would read (each path yields `none` when
  `forceRefresh` is set, exactly as in the source);
* `metadataRequest` is the `octokit.repos.get` call wrapped by
  `fetchWithConditional`;
* `eventsCollect` is the outcome of `collectDeploymentEvents(runtime, repo)`
  (the dispatched event source, whose upstream calls may reject);
* `prCollect` is the outcome of `collectPullRequests(...)` (its GraphQL
  calls may reject). -/

structure RepoConfig where
  slug : String
  owner : String
  name : String
  method : String
  actions : Option ActionsCollectionOptions := none
  deployments : Option DeploymentsCollectionOptions := none
  releases : Option ReleasesCollectionOptions := none
deriving Repr

structure RepoMetadata where
  id : Int
  name : String
  fullName : String
  description : Option String
  htmlUrl : String
  defaultBranch : String
  language : Option String
  topics : List String
  stargazersCount : Int
  forksCount : Int
  openIssuesCount : Int
  pushedAt : Option Int
deriving DecidableEq, Repr

/-- The repository payload as the untyped `metadataData : any` is read: each
field access yields `none` for `null`/`undefined` (which is what the `??`
chains in the source test for). -/
structure RawRepoMetadata where
  id : Option Int := none
  name : Option String := none
  fullName : Option String := none
  description : Option String := none
  htmlUrl : Option String := none
  defaultBranch : Option String := none
  language : Option String := none
  topics : Option (List String) := none
  stargazersCount : Option Int := none
  forksCount : Option Int := none
  openIssuesCount : Option Int := none
  pushedAt : Option Int := none
deriving DecidableEq, Repr

/-- A normalized metadata object read back from a cache file, viewed through
the same untyped field accesses. -/
def RepoMetadata.toRaw (m : RepoMetadata) : RawRepoMetadata :=
  { id := some m.id, name := some m.name, fullName := some m.fullName,
    description := m.description, htmlUrl := some m.htmlUrl,
    defaultBranch := some m.defaultBranch, language := m.language,
    topics := some m.topics, stargazersCount := some m.stargazersCount,
    forksCount := some m.forksCount,
    openIssuesCount := some m.openIssuesCount, pushedAt := m.pushedAt }

structure RepoMetadataCache where
  fetchedAt : Int
  metadata : RepoMetadata
  etag : Option String := none
  lastModified : Option String := none
deriving DecidableEq, Repr

/-- The `const metadata: RepoMetadata = { ... }` normalization block of
`collectRepo`, with its `??` fallback chains against the cache file. -/
def normalizeRepoMetadata (metadataData : RawRepoMetadata)
    (cachedMetadataFile : Option RepoMetadataCache)
    (repoOwner repoName : String) : RepoMetadata :=
  let cachedMeta := cachedMetadataFile.map (·.metadata)
  { id := (metadataData.id.orElse fun _ => cachedMeta.map (·.id)).getD 0,
    name := (metadataData.name.orElse fun _ =>
      cachedMeta.map (·.name)).getD repoName,
    fullName := (metadataData.fullName.orElse fun _ =>
      cachedMeta.map (·.fullName)).getD (repoOwner ++ "/" ++ repoName),
    description := metadataData.description.orElse fun _ =>
      cachedMeta.bind (·.description),
    htmlUrl := (metadataData.htmlUrl.orElse fun _ =>
      cachedMeta.map (·.htmlUrl)).getD "",
    defaultBranch := (metadataData.defaultBranch.orElse fun _ =>
      cachedMeta.map (·.defaultBranch)).getD "main",
    language := metadataData.language.orElse fun _ =>
      cachedMeta.bind (·.language),
    topics :=
      match metadataData.topics with
      | some topics => topics
      | none => (cachedMeta.map (·.topics)).getD [],
    stargazersCount := (metadataData.stargazersCount.orElse fun _ =>
      cachedMeta.map (·.stargazersCount)).getD 0,
    forksCount := (metadataData.forksCount.orElse fun _ =>
      cachedMeta.map (·.forksCount)).getD 0,
    openIssuesCount := (metadataData.openIssuesCount.orElse fun _ =>
      cachedMeta.map (·.openIssuesCount)).getD 0,
    pushedAt := metadataData.pushedAt.orElse fun _ =>
      cachedMeta.bind (·.pushedAt) }

structure RepoCollectionResult where
  repo : String
  pullRequests : Nat
  deploymentEvents : Nat
  cached : Bool
deriving DecidableEq, Repr

inductive CollectError where
  | http (e : HttpError)
  | failure (msg : String)
deriving DecidableEq, Repr

/-- The three per-repository JSON artifacts `collectRepo` can write. -/
inductive Artifact where
  | metadata
  | events
  | pullRequests
deriving DecidableEq, Repr

/-- The tail of `collectRepo` from the pull-request block on; `writes` are the
disk writes already performed and `events` the runs of the events payload. -/
def collectRepoAfterEvents (forceRefresh : Bool) (metadata : RepoMetadata)
    (writes : List Artifact) (events : List DeploymentLikeEvent)
    (cachedPRsFile : Option PullRequestCollection)
    (prCollect : Except CollectError PullRequestCollection) :
    List Artifact × Except CollectError RepoCollectionResult :=
  let prCached := if forceRefresh then none else cachedPRsFile
  match prCached with
  | some prPayload =>
    (writes, .ok { repo := metadata.fullName,
                   pullRequests := prPayload.pullRequests.length,
                   deploymentEvents := events.length,
                   cached := !forceRefresh })
  | none =>
    match prCollect with
    | .error e => (writes, .error e)
    | .ok prCollection =>
      (writes ++ [Artifact.pullRequests],
       .ok { repo := metadata.fullName,
             pullRequests := prCollection.pullRequests.length,
             deploymentEvents := events.length,
             cached := !forceRefresh })

def collectRepo (forceRefresh : Bool) (repo : RepoConfig)
    (cachedMetadataFile : Option RepoMetadataCache)
    (metadataRequest :
      List (String × String) → Except HttpError (RawRepoMetadata × RespHeaders))
    (cachedEventsFile : Option (List DeploymentLikeEvent))
    (eventsCollect : Except CollectError (List DeploymentLikeEvent))
    (cachedPRsFile : Option PullRequestCollection)
    (prCollect : Except CollectError PullRequestCollection) :
    List Artifact × Except CollectError RepoCollectionResult :=
  let cachedMeta := if forceRefresh then none else cachedMetadataFile
  match fetchWithConditional metadataRequest
      (cachedMeta.map fun f =>
        { data := f.metadata.toRaw, etag := f.etag,
          lastModified := f.lastModified }) with
  | .error e => ([], .error (.http e))
  | .ok metadataResult =>
    let metadata :=
      normalizeRepoMetadata metadataResult.data cachedMeta repo.owner repo.name
    -- `await writeJson(metadataPath, ...)` happens unconditionally here.
    let eventsCached := if forceRefresh then none else cachedEventsFile
    match eventsCached with
    | some runs =>
      -- cache hit on the events artifact: no event collection, no write
      (collectRepoAfterEvents forceRefresh metadata [Artifact.metadata] runs
        cachedPRsFile prCollect)
    | none =>
      match eventsCollect with
      | .error e => ([Artifact.metadata], .error e)
      | .ok events =>
        collectRepoAfterEvents forceRefresh metadata
          [Artifact.metadata, Artifact.events] events cachedPRsFile prCollect

/-- `collectReposParallel`: a fixed pool of workers pulls indices from the
shared `index` counter; every index is claimed by exactly one worker and its
slot of the pre-sized `results` array is written exactly once — with the
`catch` branch substituting the zero-valued summary — so, for any
interleaving, the filled array is the index-wise image of the input.  The
trailing `results.filter(Boolean)` is the `filterMap id` over the filled
slots. -/
def collectReposParallel
    (collect : RepoConfig → Except CollectError RepoCollectionResult)
    (repoConfigs : List RepoConfig) : List RepoCollectionResult :=
  (repoConfigs.map fun repoConfig =>
    some (match collect repoConfig with
      | .ok summary => summary
      | .error _ =>
        { repo := repoConfig.slug, pullRequests := 0,
          deploymentEvents := 0, cached := false })).filterMap id

/-! ## Sample data for concrete evaluations -/

/-- The workflow run of the repository's own unit test `uses workflowId when
provided and does not require keywords` (actions.test.ts): completed,
successful, inside the window, on the configured branch. -/
def wfRunDeployMaster : WorkflowRun :=
  { id := 201, status := some "completed", conclusion := some "success",
    created_at := some 50, updated_at := some 54,
    name := some "Container Images CD", display_title := some "Deploy master",
    event := some "push", head_branch := some "master",
    head_sha := some "sha-prod", run_attempt := some 1,
    run_number := some 1337, html_url := some "runs/201" }

/-- The options of that unit test: an explicit workflow identifier, an empty
keyword list, a branch restriction. -/
def wfIdOptions : ActionsCollectionOptions :=
  { workflowKeywords := [], workflowId := some 123456, events := none,
    branch := some "master" }

/-! ## Theorems -/

/-- C9: for every rate-limit state in which `remaining` is strictly greater
than the threshold, or in which `resetAt` has already passed (the code tests
`resetAt.getTime() <= now`), `checkAndWait()` returns immediately without
suspending. -/
theorem checkAndWait_immediate_above_threshold_or_past_reset
    (rl : RateLimiter) (now : Int)
    (h : rl.remaining > rl.threshold ∨ rl.resetAt ≤ now) :
    rl.checkAndWait now = none := by
  unfold RateLimiter.checkAndWait
  exact if_pos h

theorem checkAndWait_immediate_above_threshold_or_past_reset_witness :
    (((500 : Int) > 100 ∨ (1000 : Int) ≤ 50) ∧
      (RateLimiter.mk 500 1000 100).checkAndWait 50 = none) ∧
    (((50 : Int) > 100 ∨ (1000 : Int) ≤ 2000) ∧
      (RateLimiter.mk 50 1000 100).checkAndWait 2000 = none) :=
  ⟨⟨by decide,
    checkAndWait_immediate_above_threshold_or_past_reset _ 50 (by decide)⟩,
   ⟨by decide,
    checkAndWait_immediate_above_threshold_or_past_reset _ 2000 (by decide)⟩⟩

/-- C7: for every cached value with a valid etag, if the wrapped request
fails with the upstream "not modified" signal (status 304), the conditional
fetch returns a result whose `data`, `etag` and `lastModified` equal the
cached value's fields and whose `source` is `"cache"`; any other failure
propagates unchanged to the caller. -/
theorem fetchWithConditional_not_modified_returns_cache
    (T : Type)
    (request : List (String × String) → Except HttpError (T × RespHeaders))
    (c : CachedResponse T) (t : String)
    (hetag : c.etag = some t) (ht : t ≠ "")
    (e : HttpError)
    (herr : request (conditionalHeaders (some c)) = .error e) :
    (e.status = 304 →
      fetchWithConditional request (some c) =
        .ok { data := c.data, etag := c.etag,
              lastModified := c.lastModified, source := .cache }) ∧
    (e.status ≠ 304 →
      fetchWithConditional request (some c) = .error e) := by
  unfold fetchWithConditional
  rw [herr]
  constructor
  · intro h304
    simp [h304]
  · intro hother
    simp [hother]

theorem fetchWithConditional_not_modified_returns_cache_witness :
    (fetchWithConditional (fun _ => .error ⟨304⟩)
        (some (⟨7, some "abc", some "lm"⟩ : CachedResponse Nat)) =
      .ok ⟨7, some "abc", some "lm", .cache⟩) ∧
    (fetchWithConditional (fun _ => .error ⟨500⟩)
        (some (⟨7, some "abc", some "lm"⟩ : CachedResponse Nat)) =
      .error ⟨500⟩) :=
  ⟨(fetchWithConditional_not_modified_returns_cache Nat _ _ "abc" rfl
      (by decide) ⟨304⟩ rfl).1 rfl,
   (fetchWithConditional_not_modified_returns_cache Nat _ _ "abc" rfl
      (by decide) ⟨500⟩ rfl).2 (by decide)⟩

/-- C10: when no cached value is supplied, an upstream failure — the 304
"not modified" signal included — propagates to the caller instead of being
converted into a cache result; consequently a successful result with
`source = "cache"` is only possible when a cached value was supplied. -/
theorem fetchWithConditional_no_cache_propagates
    (T : Type)
    (request : List (String × String) → Except HttpError (T × RespHeaders)) :
    (∀ e : HttpError,
      request (conditionalHeaders (none : Option (CachedResponse T))) =
        .error e →
      fetchWithConditional request none = .error e) ∧
    (∀ (cached : Option (CachedResponse T)) (r : ConditionalFetchResult T),
      fetchWithConditional request cached = .ok r →
      r.source = .cache → cached.isSome = true) := by
  constructor
  · intro e h
    simp [fetchWithConditional, h]
  · intro cached r hok hsrc
    cases cached with
    | some c => rfl
    | none =>
      unfold fetchWithConditional at hok
      cases hreq : request
          (conditionalHeaders (none : Option (CachedResponse T))) with
      | ok v =>
        rw [hreq] at hok
        cases hok
        simp at hsrc
      | error e =>
        rw [hreq] at hok
        exact Except.noConfusion hok

theorem fetchWithConditional_no_cache_propagates_witness :
    (fetchWithConditional (fun _ => .error ⟨304⟩)
        (none : Option (CachedResponse Nat)) = .error ⟨304⟩) ∧
    (some (⟨5, some "e1", none⟩ : CachedResponse Nat)).isSome = true :=
  ⟨(fetchWithConditional_no_cache_propagates Nat (fun _ => .error ⟨304⟩)).1
      ⟨304⟩ rfl,
   (fetchWithConditional_no_cache_propagates Nat (fun _ => .error ⟨304⟩)).2
      (some ⟨5, some "e1", none⟩) ⟨5, some "e1", none, .cache⟩ rfl rfl⟩

/-- C5: the code contradicts the claim (and the repository's own unit test
`uses workflowId when provided and does not require keywords`):
`collectActionsEvents` never reads `options.workflowId`, so with an explicit
workflow identifier configured and an empty keyword list, a completed,
successful run inside the window on the configured branch is still rejected
by the mandatory keyword match — the collector returns no event where the
test expects exactly the run's event. -/
theorem collectActionsEvents_ignores_workflowId :
    wfIdOptions.workflowId = some 123456 ∧
    collectActionsEvents wfIdOptions 0 100 [wfRunDeployMaster] = [] := by
  constructor
  · rfl
  · rfl

/-- A release whose relevant timestamp (5) is older than the window start
(10) used below. -/
def staleRelease : Release :=
  { id := 1, published_at := some 5, created_at := some 4,
    name := some "v1.0.0", tag_name := some "v1.0.0", prerelease := false,
    draft := false, target_commitish := some "main",
    html_url := some "rel/1", authorLogin := some "alice" }

/-- A release inside the window `[10, 20]` used below, listed after
`staleRelease`. -/
def freshRelease : Release :=
  { id := 2, published_at := some 15, created_at := some 14,
    name := some "v1.1.0", tag_name := some "v1.1.0", prerelease := false,
    draft := false, target_commitish := some "main",
    html_url := some "rel/2", authorLogin := some "alice" }

/-- C6 fails on the code: `collectReleaseEvents` reacts to a release older
than the window start with `continue`, not with a break, so subsequent
releases in the sequence ARE examined.  Concretely, with window `[10, 20]`,
the in-window release listed after the stale one is still emitted, whereas
the claim ("the scan stops; no subsequent release is examined") would force
the same empty result as for the stale release alone.  (The full release
list is also fetched up front by `octokit.paginate`, so nothing is saved on
the fetching side either.) -/
theorem collectReleaseEvents_no_short_circuit_counterexample :
    ((staleRelease.published_at.orElse fun _ =>
        staleRelease.created_at).getD 0 < 10) ∧
    collectReleaseEvents (fun _ _ => none) 10 20 {} [staleRelease] = [] ∧
    collectReleaseEvents (fun _ _ => none) 10 20 {}
        [staleRelease, freshRelease] =
      [releaseEvent freshRelease 15] := by
  refine ⟨by decide, rfl, rfl⟩

/-- C6 (amended): releases whose relevant timestamp is older than the window
start are skipped individually and the scan continues — the loop of
`collectReleaseEvents` is a pure per-item filter over the release list (which
was fetched in full, up front).  It distributes over concatenation, so
earlier releases — stale ones included — never suppress the examination of
later ones, and every in-window release is emitted regardless of position. -/
theorem collectReleaseEvents_append
    (regexTest : String → String → Option Bool)
    (windowStart windowEnd : Int) (options : ReleasesCollectionOptions)
    (l₁ l₂ : List Release) :
    collectReleaseEvents regexTest windowStart windowEnd options (l₁ ++ l₂) =
      collectReleaseEvents regexTest windowStart windowEnd options l₁ ++
      collectReleaseEvents regexTest windowStart windowEnd options l₂ := by
  induction l₁ with
  | nil => rfl
  | cons r rest ih =>
    simp only [List.cons_append, collectReleaseEvents]
    cases releaseDecision regexTest windowStart windowEnd options r with
    | none => simpa using ih
    | some event => simpa using ih

/-- A non-bot pull request merged at 20 — after the window end of the
`[0, 10]` window used in the counterexample below. -/
def latePRNode : PRNode :=
  { number := 7, title := "late merge", createdAt := 1, mergedAt := some 20,
    additions := 3, deletions := 1, changedFiles := some 2,
    headRefName := "feat", baseRefName := "main",
    authorLogin := some "alice" }

/-- A non-bot pull request merged at 5, inside the `[0, 10]` window. -/
def inWindowPRNode : PRNode :=
  { number := 8, title := "in window", createdAt := 1, mergedAt := some 5,
    additions := 3, deletions := 1, changedFiles := some 2,
    headRefName := "feat", baseRefName := "main",
    authorLogin := some "alice" }

/-- C4 fails on the code: with the collection window `[0, 10]`, a pull
request merged at 20 — after the window end — is still retained in the main
result list, because `collectPullRequests` only checks
`mergedAt < windowStart` and is never given the window end at all. -/
theorem collectPullRequests_upper_bound_counterexample :
    ((0 : Int) ≤ 10) ∧
    (collectPullRequests ⟨false, ["dependabot"]⟩ 0
        [⟨[latePRNode], false⟩]).pullRequests.map (·.mergedAt) = [20] ∧
    ¬ ((20 : Int) ≤ 10) :=
  ⟨by decide, rfl, by decide⟩

/-- If the loop body retains a pull request, its `mergedAt` passed the
`mergedAt < windowStart` guard. -/
theorem prNodeDecision_retain_mergedAt (options : PROptions)
    (windowStart : Int) (pr : PRNode) (s : PullRequestSummary)
    (h : prNodeDecision options windowStart pr = .retain s) :
    windowStart ≤ s.mergedAt := by
  unfold prNodeDecision at h
  split at h
  · exact PRNodeDecision.noConfusion h
  · split at h
    · exact PRNodeDecision.noConfusion h
    · split at h
      · exact PRNodeDecision.noConfusion h
      · cases h
        dsimp only
        omega

/-- Pull requests added to the accumulator by the node loop all passed the
window-start guard. -/
theorem mem_processPRNodes (options : PROptions) (windowStart : Int) :
    ∀ (nodes : List PRNode) (acc : PullRequestCollection)
      (s : PullRequestSummary),
      s ∈ (processPRNodes options windowStart nodes acc).pullRequests →
      s ∈ acc.pullRequests ∨ windowStart ≤ s.mergedAt := by
  intro nodes
  induction nodes with
  | nil => exact fun acc s h => Or.inl h
  | cons n rest ih =>
    intro acc s h
    simp only [processPRNodes] at h
    cases hd : prNodeDecision options windowStart n with
    | skip => simp only [hd] at h; exact ih _ _ h
    | bot b =>
      simp only [hd] at h
      have hh := ih _ _ h
      exact hh
    | retain s' =>
      simp only [hd] at h
      rcases ih _ _ h with hmem | hle
      · rcases List.mem_append.mp hmem with h1 | h2
        · exact Or.inl h1
        · have hs : s = s' := by simpa using h2
          subst hs
          exact Or.inr (prNodeDecision_retain_mergedAt _ _ _ _ hd)
      · exact Or.inr hle

/-- Pull requests added by the pagination loop all passed the window-start
guard. -/
theorem mem_collectPRPages (options : PROptions) (windowStart : Int) :
    ∀ (pages : List PRPage) (acc : PullRequestCollection)
      (s : PullRequestSummary),
      s ∈ (collectPRPages options windowStart pages acc).pullRequests →
      s ∈ acc.pullRequests ∨ windowStart ≤ s.mergedAt := by
  intro pages
  induction pages with
  | nil => exact fun acc s h => Or.inl h
  | cons page rest ih =>
    intro acc s h
    simp only [collectPRPages] at h
    by_cases hstale :
        (page.nodes.all (prNodeStale windowStart) && !page.nodes.isEmpty)
          = true
    · rw [if_pos hstale] at h
      exact Or.inl h
    · rw [if_neg hstale] at h
      by_cases hnp : (!page.hasNextPage) = true
      · rw [if_pos hnp] at h
        exact mem_processPRNodes _ _ _ _ _ h
      · rw [if_neg hnp] at h
        rcases ih _ _ h with hmem | hle
        · exact mem_processPRNodes _ _ _ _ _ hmem
        · exact Or.inr hle

/-- C4 (amended): every pull request retained in the main result list has a
non-null `mergedAt` (the summary's `mergedAt` is the extracted non-null
value) satisfying `windowStart ≤ mergedAt`; the upper window bound is not
enforced — `collectPullRequests` never receives `windowEnd`, so nothing
bounds `mergedAt` from above. -/
theorem collectPullRequests_retained_mergedAt_lower_bound
    (options : PROptions) (windowStart : Int) (pages : List PRPage)
    (s : PullRequestSummary)
    (h : s ∈ (collectPullRequests options windowStart pages).pullRequests) :
    windowStart ≤ s.mergedAt := by
  rcases mem_collectPRPages options windowStart pages ⟨[], []⟩ s h with h0 | hle
  · exact absurd h0 (List.not_mem_nil s)
  · exact hle

theorem collectPullRequests_retained_mergedAt_lower_bound_witness :
    (0 : Int) ≤
      ({ number := 8, title := "in window", createdAt := 1, mergedAt := 5,
         additions := 3, deletions := 1, changedFiles := some 2,
         headRefName := "feat", baseRefName := "main",
         authorLogin := some "alice" } : PullRequestSummary).mergedAt :=
  collectPullRequests_retained_mergedAt_lower_bound
    ⟨false, ["dependabot"]⟩ 0 [⟨[inWindowPRNode], false⟩] _ (by decide)

/-- Actions options configuring the branch restriction to a branch whose
bare name itself begins with `refs/heads/`. -/
def branchOptsBare : ActionsCollectionOptions :=
  { workflowKeywords := ["deploy"], workflowId := none, events := none,
    branch := some "refs/heads/x" }

/-- A completed, successful, keyword-matching run inside the window whose
observed head branch is the prefixed form `refs/heads/` ++ `refs/heads/x`. -/
def runPrefixedHead : WorkflowRun :=
  { id := 301, status := some "completed", conclusion := some "success",
    created_at := some 50, updated_at := some 55,
    name := some "deploy", display_title := some "deploy",
    event := some "push", head_branch := some "refs/heads/refs/heads/x",
    head_sha := some "sha1", run_attempt := some 1, run_number := some 1,
    html_url := some "runs/301" }

/-- The same run observed with the bare head branch `x`. -/
def runBareHead : WorkflowRun :=
  { runPrefixedHead with id := 302, head_branch := some "x" }

/-- C8 fails on the code for branch names that already begin with
`refs/heads/`: with the restriction configured as the bare name
`refs/heads/x`, a run observed under the prefixed form
`refs/heads/refs/heads/x` is rejected (the candidate set strips only one
leading `refs/heads/`), although the same configuration accepts the stripped
alias `x` — so the "bare and prefixed forms accept each other for ANY branch
name" universality is false. -/
theorem branch_filter_aliases_counterexample :
    collectActionsEvents branchOptsBare 0 100 [runPrefixedHead] = [] ∧
    collectActionsEvents branchOptsBare 0 100 [runBareHead] =
      [workflowRunEvent runBareHead 50] :=
  ⟨rfl, rfl⟩

theorem listIsPrefixOf_append (p q : List Char) :
    p.isPrefixOf (p ++ q) = true := by
  induction p with
  | nil => simp [List.isPrefixOf]
  | cons a as ih => simp [List.isPrefixOf, ih]

theorem strStartsWith_append_self (p s : String) :
    strStartsWith (p ++ s) p = true := by
  simp [strStartsWith, String.data_append, listIsPrefixOf_append]

theorem strDrop_refs_heads (s : String) :
    strDrop ("refs/heads/" ++ s) 11 = s := by
  unfold strDrop
  rw [String.data_append, List.drop_left' (by decide)]

/-- C8 (amended): the branch filter's candidate set makes the bare and
prefixed forms of a branch accept each other for every branch name that does
not itself begin with `refs/heads/` (in particular for `main`:
`refs/heads/main` is a candidate of `main` and vice versa); for a branch
name already beginning with `refs/heads/`, only the direction
"configured prefixed form accepts the observed bare form" survives. -/
theorem normalizeBranchCandidates_bare_prefixed_aliases (b : String)
    (hb : strStartsWith b "refs/heads/" = false) :
    ("refs/heads/" ++ b) ∈ normalizeBranchCandidates b ∧
    b ∈ normalizeBranchCandidates ("refs/heads/" ++ b) := by
  constructor
  · simp [normalizeBranchCandidates, hb]
  · have h1 : strStartsWith ("refs/heads/" ++ b) "refs/heads/" = true :=
      strStartsWith_append_self _ _
    simp [normalizeBranchCandidates, h1, strDrop_refs_heads]

theorem normalizeBranchCandidates_bare_prefixed_aliases_witness :
    ("refs/heads/" ++ "main") ∈ normalizeBranchCandidates "main" ∧
    "main" ∈ normalizeBranchCandidates ("refs/heads/" ++ "main") :=
  normalizeBranchCandidates_bare_prefixed_aliases "main" (by decide)

/-- Events appended by the deployment node loop all passed the
`createdAt < windowStart` guard. -/
theorem mem_processDeploymentNodes (options : DeploymentsCollectionOptions)
    (windowStart windowEnd : Int) :
    ∀ (nodes : List DeploymentNode) (acc : List DeploymentLikeEvent)
      (ev : DeploymentLikeEvent),
      ev ∈ (processDeploymentNodes options windowStart windowEnd
        nodes acc).events →
      ev ∈ acc ∨ windowStart ≤ ev.createdAt := by
  intro nodes
  induction nodes with
  | nil => exact fun acc ev h => Or.inl h
  | cons d ds ih =>
    intro acc ev h
    simp only [processDeploymentNodes] at h
    by_cases h1 : d.createdAt < windowStart
    · rw [if_pos h1] at h
      exact Or.inl h
    · rw [if_neg h1] at h
      by_cases h2 : d.createdAt > windowEnd
      · rw [if_pos h2] at h
        exact ih _ _ h
      · rw [if_neg h2] at h
        by_cases h3 : (!deploymentEnvironmentOk options d.environment) = true
        · rw [if_pos h3] at h
          exact ih _ _ h
        · rw [if_neg h3] at h
          by_cases h4 : (!deploymentStatusOk options
              ((d.statuses.head?).map (·.state))) = true
          · rw [if_pos h4] at h
            exact ih _ _ h
          · rw [if_neg h4] at h
            rcases ih _ _ h with hmem | hle
            · rcases List.mem_append.mp hmem with ha | hb
              · exact Or.inl ha
              · have hev : ev = deploymentNodeEvent d := by simpa using hb
                subst hev
                refine Or.inr ?_
                simp only [deploymentNodeEvent]
                omega
            · exact Or.inr hle

/-- Events appended by the deployment pagination loop all passed the
`createdAt < windowStart` guard. -/
theorem mem_collectDeploymentPages (options : DeploymentsCollectionOptions)
    (windowStart windowEnd : Int) :
    ∀ (pages : List DeploymentPage) (acc : List DeploymentLikeEvent)
      (ev : DeploymentLikeEvent),
      ev ∈ collectDeploymentPages options windowStart windowEnd pages acc →
      ev ∈ acc ∨ windowStart ≤ ev.createdAt := by
  intro pages
  induction pages with
  | nil => exact fun acc ev h => Or.inl h
  | cons page rest ih =>
    intro acc ev h
    simp only [collectDeploymentPages] at h
    cases hscan : processDeploymentNodes options windowStart windowEnd
        page.nodes acc with
    | done acc' =>
      simp only [hscan] at h
      exact mem_processDeploymentNodes options windowStart windowEnd
        page.nodes acc ev (by rw [hscan]; exact h)
    | cont acc' =>
      simp only [hscan] at h
      have hacc' : ∀ x, x ∈ acc' → x ∈ acc ∨ windowStart ≤ x.createdAt :=
        fun x hx => mem_processDeploymentNodes options windowStart windowEnd
          page.nodes acc x (by rw [hscan]; exact hx)
      by_cases hnp : (!page.hasNextPage) = true
      · rw [if_pos hnp] at h
        exact hacc' ev h
      · rw [if_neg hnp] at h
        rcases ih _ _ h with hmem | hle
        · exact hacc' ev hmem
        · exact Or.inr hle

/-- Hitting a node older than the window start makes the node loop return
`done` with whatever the prefix of the page had accumulated. -/
theorem processDeploymentNodes_stale_mid_page
    (options : DeploymentsCollectionOptions) (windowStart windowEnd : Int)
    (old : DeploymentNode) (hold : old.createdAt < windowStart) :
    ∀ (pre rest : List DeploymentNode) (acc : List DeploymentLikeEvent),
      processDeploymentNodes options windowStart windowEnd
          (pre ++ old :: rest) acc =
        .done (processDeploymentNodes options windowStart windowEnd
          pre acc).events := by
  intro pre
  induction pre with
  | nil =>
    intro rest acc
    simp only [List.nil_append, processDeploymentNodes]
    rw [if_pos hold]
    rfl
  | cons d ds ih =>
    intro rest acc
    simp only [List.cons_append, processDeploymentNodes]
    by_cases h1 : d.createdAt < windowStart
    · rw [if_pos h1, if_pos h1]
      rfl
    · rw [if_neg h1, if_neg h1]
      by_cases h2 : d.createdAt > windowEnd
      · rw [if_pos h2, if_pos h2]
        exact ih rest acc
      · rw [if_neg h2, if_neg h2]
        by_cases h3 : (!deploymentEnvironmentOk options d.environment) = true
        · rw [if_pos h3, if_pos h3]
          exact ih rest acc
        · rw [if_neg h3, if_neg h3]
          by_cases h4 : (!deploymentStatusOk options
              ((d.statuses.head?).map (·.state))) = true
          · rw [if_pos h4, if_pos h4]
            exact ih rest acc
          · rw [if_neg h4, if_neg h4]
            exact ih rest _

/-- C3: the GraphQL deployments scan emits no event whose `createdAt` is
strictly before the window start, even when such a node appears mid-page
after newer in-window nodes; and on the first node with `createdAt` before
the window start it returns immediately with the events accumulated so far —
the remainder of that page and all later pages are ignored (the run over the
full input equals the run over the page prefix alone). -/
theorem collectDeploymentGraphQL_window_start_and_early_return :
    (∀ (options : DeploymentsCollectionOptions)
      (windowStart windowEnd : Int) (pages : List DeploymentPage)
      (ev : DeploymentLikeEvent),
      ev ∈ collectDeploymentGraphQLEvents options windowStart windowEnd
        pages →
      windowStart ≤ ev.createdAt) ∧
    (∀ (options : DeploymentsCollectionOptions)
      (windowStart windowEnd : Int)
      (pre : List DeploymentNode) (old : DeploymentNode)
      (rest : List DeploymentNode) (hnp : Bool)
      (later : List DeploymentPage),
      old.createdAt < windowStart →
      collectDeploymentGraphQLEvents options windowStart windowEnd
          (⟨pre ++ old :: rest, hnp⟩ :: later) =
        collectDeploymentGraphQLEvents options windowStart windowEnd
          [⟨pre, false⟩]) := by
  constructor
  · intro options windowStart windowEnd pages ev h
    rcases mem_collectDeploymentPages options windowStart windowEnd
        pages [] ev h with h0 | hle
    · exact absurd h0 (List.not_mem_nil ev)
    · exact hle
  · intro options windowStart windowEnd pre old rest hnp later hold
    unfold collectDeploymentGraphQLEvents
    simp only [collectDeploymentPages]
    rw [processDeploymentNodes_stale_mid_page options windowStart windowEnd
      old hold pre rest []]
    cases hp : processDeploymentNodes options windowStart windowEnd pre []
      with
    | done acc' => simp [DeploymentScan.events]
    | cont acc' => simp [DeploymentScan.events]

/-- Concrete deployment node used in the C3 witness. -/
def deployNode (dbId ts : Int) : DeploymentNode :=
  { id := "gid", databaseId := dbId, createdAt := ts, updatedAt := ts,
    environment := some "production", task := some "deploy",
    refName := some "main", commitOid := some "abc",
    creatorLogin := some "octo",
    statuses := [⟨"SUCCESS", some "ok", ts⟩] }

theorem collectDeploymentGraphQL_window_start_and_early_return_witness :
    ((10 : Int) ≤ (deploymentNodeEvent (deployNode 1 15)).createdAt) ∧
    (collectDeploymentGraphQLEvents ⟨none, none⟩ 10 20
        [⟨[deployNode 1 15, deployNode 2 5, deployNode 3 12], true⟩,
         ⟨[deployNode 4 11], false⟩] =
      collectDeploymentGraphQLEvents ⟨none, none⟩ 10 20
        [⟨[deployNode 1 15], false⟩]) :=
  ⟨collectDeploymentGraphQL_window_start_and_early_return.1 ⟨none, none⟩
      10 20 [⟨[deployNode 1 15], false⟩] _ (by decide),
   collectDeploymentGraphQL_window_start_and_early_return.2 ⟨none, none⟩
      10 20 [deployNode 1 15] (deployNode 2 5) [deployNode 3 12] true
      [⟨[deployNode 4 11], false⟩] (by decide)⟩

/-- A repository configuration used for the orchestrator evaluations. -/
def widgetsRepo : RepoConfig :=
  { slug := "acme/widgets", owner := "acme", name := "widgets",
    method := "actions" }

/-- C2 fails on the code: in a force-refresh run whose metadata fetch and
event collection succeed, a pull-request collection failure still leaves the
metadata and events artifacts written — `collectRepo` writes each artifact
immediately after obtaining it, not after both sub-collections succeed.  The
write trace at this concrete input is `[metadata, events]`, not `[]`. -/
theorem collectRepo_writes_despite_pr_failure_counterexample :
    collectRepo true widgetsRepo none
        (fun _ => .ok ({ fullName := some "acme/widgets" }, ⟨none, none⟩))
        none (.ok []) none (.error (.failure "graphql boom")) =
      ([Artifact.metadata, Artifact.events],
       .error (.failure "graphql boom")) :=
  rfl

/-- C2 (amended): disk writes in `collectRepo` are per-artifact and
immediate.  (1) Whenever, on a force-refresh run, the metadata fetch and
event collection succeed and pull-request collection throws, the metadata
and events artifacts have already been written, in that order, and only the
pull-requests artifact is withheld.  (2) The metadata fetch always runs and
`metadata.json` is written unconditionally after every successful fetch —
even on an un-refreshed run whose response is 304-served from the
conditional cache — whereas the events and pull-requests artifacts are each
skipped entirely (neither collected nor written) when their own
un-refreshed cache file exists. -/
theorem collectRepo_per_artifact_write_order
    (repo : RepoConfig)
    (metadataRequest : List (String × String) →
      Except HttpError (RawRepoMetadata × RespHeaders)) :
    (∀ (cmf : Option RepoMetadataCache)
      (raw : RawRepoMetadata) (hdrs : RespHeaders),
      metadataRequest
          (conditionalHeaders (none : Option (CachedResponse RawRepoMetadata)))
        = .ok (raw, hdrs) →
      ∀ (cef : Option (List DeploymentLikeEvent))
        (events : List DeploymentLikeEvent)
        (cpf : Option PullRequestCollection) (e : CollectError),
        collectRepo true repo cmf metadataRequest cef (.ok events) cpf
            (.error e) =
          ([Artifact.metadata, Artifact.events], .error e)) ∧
    (∀ (mc : RepoMetadataCache) (e304 : HttpError),
      metadataRequest
          (conditionalHeaders (some ⟨mc.metadata.toRaw, mc.etag,
            mc.lastModified⟩))
        = .error e304 →
      e304.status = 304 →
      ∀ (runs : List DeploymentLikeEvent) (prc : PullRequestCollection)
        (ec : Except CollectError (List DeploymentLikeEvent))
        (pc : Except CollectError PullRequestCollection),
        collectRepo false repo (some mc) metadataRequest (some runs) ec
            (some prc) pc =
          ([Artifact.metadata],
           .ok { repo := mc.metadata.fullName,
                 pullRequests := prc.pullRequests.length,
                 deploymentEvents := runs.length, cached := true })) := by
  constructor
  · intro cmf raw hdrs hmeta cef events cpf e
    simp [collectRepo, fetchWithConditional, hmeta, collectRepoAfterEvents]
  · intro mc e304 hmeta h304 runs prc ec pc
    simp only [RepoMetadata.toRaw] at hmeta
    simp [collectRepo, fetchWithConditional, hmeta, h304,
      collectRepoAfterEvents, normalizeRepoMetadata, RepoMetadata.toRaw]

/-- Metadata cache file used in the C2 witness. -/
def widgetsMetadataCache : RepoMetadataCache :=
  { fetchedAt := 0,
    metadata :=
      { id := 1, name := "widgets", fullName := "acme/widgets",
        description := none, htmlUrl := "u", defaultBranch := "main",
        language := none, topics := [], stargazersCount := 0,
        forksCount := 0, openIssuesCount := 0, pushedAt := none },
    etag := some "tag", lastModified := none }

theorem collectRepo_per_artifact_write_order_witness :
    (collectRepo true widgetsRepo none
        (fun _ => .ok ({ defaultBranch := some "main" }, ⟨some "tag", none⟩))
        none (.ok []) none (.error (.http ⟨502⟩)) =
      ([Artifact.metadata, Artifact.events], .error (.http ⟨502⟩))) ∧
    (collectRepo false widgetsRepo (some widgetsMetadataCache)
        (fun _ => .error ⟨304⟩) (some []) (.ok []) (some ⟨[], []⟩)
        (.ok ⟨[], []⟩) =
      ([Artifact.metadata],
       .ok { repo := "acme/widgets", pullRequests := 0,
             deploymentEvents := 0, cached := true })) :=
  ⟨(collectRepo_per_artifact_write_order widgetsRepo _).1 none
      { defaultBranch := some "main" } ⟨some "tag", none⟩ rfl none [] none
      (.http ⟨502⟩),
   (collectRepo_per_artifact_write_order widgetsRepo _).2
      widgetsMetadataCache ⟨304⟩ rfl rfl [] ⟨[], []⟩ (.ok []) (.ok ⟨[], []⟩)⟩

/-- `collectReposParallel` fills every slot of the results array: it equals
the index-wise image of the inputs under the per-repository worker body. -/
theorem collectReposParallel_eq_map
    (collect : RepoConfig → Except CollectError RepoCollectionResult)
    (repoConfigs : List RepoConfig) :
    collectReposParallel collect repoConfigs = repoConfigs.map (fun rc =>
      match collect rc with
      | .ok summary => summary
      | .error _ =>
        { repo := rc.slug, pullRequests := 0, deploymentEvents := 0,
          cached := false }) := by
  induction repoConfigs with
  | nil => rfl
  | cons rc rest ih =>
    simp only [collectReposParallel] at ih ⊢
    simp only [List.map_cons, List.filterMap_cons, id]
    rw [ih]

/-- C1: if processing exactly one repository of the batch throws — position
`k` fails, every other position returns its normal summary — the batch
returns one result per input repository, in input order: the array has the
input's length, position `k` holds the zero-valued summary (zero pull
requests, zero deployment events, `cached := false`, keyed by the failing
repository's slug) and every other position holds that repository's normal
summary. -/
theorem collectReposParallel_single_failure_isolated
    (collect : RepoConfig → Except CollectError RepoCollectionResult)
    (repoConfigs : List RepoConfig) (k : Nat) (hk : k < repoConfigs.length)
    (e : CollectError) (summaries : Nat → RepoCollectionResult)
    (hfail : collect (repoConfigs.get ⟨k, hk⟩) = .error e)
    (hok : ∀ (j : Nat) (hj : j < repoConfigs.length), j ≠ k →
      collect (repoConfigs.get ⟨j, hj⟩) = .ok (summaries j)) :
    (collectReposParallel collect repoConfigs).length =
      repoConfigs.length ∧
    ∀ (j : Nat) (hj : j < repoConfigs.length),
      (collectReposParallel collect repoConfigs).get? j =
        some (if j = k then
          { repo := (repoConfigs.get ⟨k, hk⟩).slug, pullRequests := 0,
            deploymentEvents := 0, cached := false }
        else summaries j) := by
  rw [collectReposParallel_eq_map]
  refine ⟨List.length_map _ _, ?_⟩
  intro j hj
  rw [List.get?_map, List.get?_eq_get hj]
  by_cases hjk : j = k
  · subst hjk
    have hfail' : collect repoConfigs[j] = .error e := hfail
    simp [hfail']
  · have hok' : collect repoConfigs[j] = .ok (summaries j) := hok j hj hjk
    simp [hok', hjk]

def alphaRepo : RepoConfig :=
  { slug := "alpha/one", owner := "alpha", name := "one",
    method := "actions" }

def betaRepo : RepoConfig :=
  { slug := "beta/two", owner := "beta", name := "two",
    method := "releases" }

def betaSummary : RepoCollectionResult :=
  { repo := "beta/two", pullRequests := 3, deploymentEvents := 4,
    cached := true }

/-- A per-repository collector that throws for `alpha/one` only. -/
def batchCollect : RepoConfig → Except CollectError RepoCollectionResult :=
  fun rc =>
    if rc.slug = "alpha/one" then .error (.failure "boom")
    else .ok betaSummary

theorem collectReposParallel_single_failure_isolated_witness :
    (collectReposParallel batchCollect [alphaRepo, betaRepo]).length = 2 ∧
    (collectReposParallel batchCollect [alphaRepo, betaRepo]).get? 0 =
      some { repo := "alpha/one", pullRequests := 0, deploymentEvents := 0,
             cached := false } ∧
    (collectReposParallel batchCollect [alphaRepo, betaRepo]).get? 1 =
      some betaSummary := by
  have h := collectReposParallel_single_failure_isolated batchCollect
    [alphaRepo, betaRepo] 0 (by decide) (.failure "boom")
    (fun _ => betaSummary) rfl
    (by
      intro j hj hne
      cases j with
      | zero => exact absurd rfl hne
      | succ n =>
        cases n with
        | zero => rfl
        | succ m =>
          exact absurd (by simpa using hj) (by omega))
  refine ⟨h.1, ?_, ?_⟩
  · simpa [alphaRepo] using h.2 0 (by decide)
  · simpa using h.2 1 (by decide)

end MetricsStudy
